import Mathlib

/-!
Shallow embedding of `src/system/core/devmgr/block-watcher.cpp` (the fshost
block-device watcher of the zircon devmgr) and proofs about the claims on its
specification.

External collaborators (syscalls, ioctls, the `mount()` library call, child
processes, the boot-configuration environment) are modelled as explicit input
data carried by the `Device` / world structures; the control flow of each
translated function mirrors the C source line by line.
-/

namespace Devmgr

/-- Zircon status codes, restricted to the constructors the watcher uses.
`errOther n` stands for any other concrete error code. -/
inductive ZxStatus where
  | ok
  | errAlreadyBound
  | errBadState
  | errInvalidArgs
  | errNotFound
  | errBadPath
  | errTimedOut
  | errIo
  | errInternal
  | errOther (n : Nat)
deriving DecidableEq, Repr

/-- Results of `detect_disk_format` that the watcher distinguishes.
GPT/FVM/MBR/zxcrypt are partition-container formats (bound to sub-drivers),
the rest are filesystems or unknown. -/
inductive DiskFormat where
  | gpt
  | fvm
  | mbr
  | zxcrypt
  | blobfs
  | minfs
  | fat
  | unknown
deriving DecidableEq, Repr

/-- Partition type GUIDs the watcher compares against (`gpt_is_sys_guid`,
`gpt_is_data_guid`, `gpt_is_install_guid`, `GUID_BLOB_VALUE`,
`gpt_is_efi_guid`, `GUID_EMPTY_VALUE`); `other n` is any further GUID value. -/
inductive PartGuid where
  | sys
  | data
  | install
  | blob
  | efi
  | empty
  | other (n : Nat)
deriving DecidableEq, Repr

/-- The boot-configuration (kernel command line) keys the watcher reads,
pre-parsed.  `writable` / `checkEnabled` are presence of
`zircon.system.writable` resp. the value of `zircon.system.filesystem-check`. -/
structure Config where
  blobInit : Option String
  blobInitArg : Option String
  pkgfsCmd : Option String
  volume : Option String
  writable : Bool
  checkEnabled : Bool
deriving DecidableEq, Repr

/-- `mount_options_t` fields the watcher manipulates. -/
structure MountOptions where
  readonly : Bool
  waitUntilReady : Bool
  createMountpoint : Bool
deriving DecidableEq, Repr

/-- `default_mount_options` of fs-management (external constant): not
read-only, blocking on readiness, no mountpoint creation. -/
def default_mount_options : MountOptions :=
  { readonly := false, waitUntilReady := true, createMountpoint := false }

/-- Outcome data of the fsck child process launched by the lambda inside
`fshost_fsck`: status of `devmgr_launch`, of `proc.wait_one`, of
`proc.get_info`, and the child's exit code. -/
structure FsckOutcome where
  launchStatus : ZxStatus
  waitStatus : ZxStatus
  infoStatus : ZxStatus
  returnCode : Int
deriving DecidableEq, Repr

/-- The `launch_fsck` lambda in `fshost_fsck`: launch the checker, wait for
termination, inspect the exit code; any launch/wait/inspect failure is
returned as-is and a non-zero exit code becomes `ZX_ERR_BAD_STATE`. -/
def launch_fsck (oc : FsckOutcome) : ZxStatus :=
  if oc.launchStatus ≠ .ok then oc.launchStatus
  else if oc.waitStatus ≠ .ok then oc.waitStatus
  else if oc.infoStatus ≠ .ok then oc.infoStatus
  else if oc.returnCode ≠ 0 then .errBadState
  else .ok

/-- `fshost_fsck`: skips entirely (returning `ZX_OK`) unless
`zircon.system.filesystem-check` is set; otherwise runs the external `fsck`
wrapper, whose result is that of the launched checker child. -/
def fshost_fsck (checkEnabled : Bool) (oc : FsckOutcome) : ZxStatus :=
  if ¬checkEnabled then .ok
  else launch_fsck oc

/-- Fixed key base of the bootstrap manifest: `"zircon.system.pkgfs.file."`
(25 characters). -/
def pkgfsFileKeyBase : String := "zircon.system.pkgfs.file."

/-- Shared-library subdirectory implicitly prepended by
`pkgfs_ldsvc_load_object`. -/
def libSubdir : String := "lib/"

/-- Boot configuration: the read-only key/value environment (`getenv`). -/
def getenv (env : List (String × String)) (k : String) : Option String :=
  env.lookup k

/-- Result of one resolver call: the returned status, the blob id for which
`openat` on the blob volume succeeded (if any), and the VMO content handed
back (if any). -/
structure LoadResult where
  status : ZxStatus
  opened : Option String
  vmo : Option Nat
deriving DecidableEq, Repr

/-- `pkgfs_ldsvc_load_blob`: builds the manifest key
`"zircon.system.pkgfs.file.<pfx><name>"` in a 256-byte buffer
(`snprintf` reporting a would-be length `≥ 256` yields `ZX_ERR_BAD_PATH`
before anything else), looks the key up in the boot configuration (missing
key: `ZX_ERR_NOT_FOUND`), opens the named blob relative to the blob volume
root (`blobVol`; open failure: `ZX_ERR_NOT_FOUND`), and clones its VMO
(`clone` models `fdio_get_vmo_clone` on the opened blob's content).
Characters are ASCII, so `String.length` is the byte length `snprintf`
reports. -/
def pkgfs_ldsvc_load_blob (env : List (String × String))
    (blobVol : List (String × Nat)) (clone : Nat → ZxStatus)
    (pfx name : String) : LoadResult :=
  let key := pkgfsFileKeyBase ++ pfx ++ name
  if 256 ≤ key.length then ⟨.errBadPath, none, none⟩
  else
    match getenv env key with
    | none => ⟨.errNotFound, none, none⟩
    | some blob =>
      match blobVol.lookup blob with
      | none => ⟨.errNotFound, none, none⟩
      | some c =>
        let s := clone c
        ⟨s, some blob, if s = .ok then some c else none⟩

/-- `pkgfs_ldsvc_load_object`: shared-library names are implicitly prefixed
with the `lib/` subdirectory. -/
def pkgfs_ldsvc_load_object (env : List (String × String))
    (blobVol : List (String × Nat)) (clone : Nat → ZxStatus)
    (name : String) : LoadResult :=
  pkgfs_ldsvc_load_blob env blobVol clone libSubdir name

/-- The empty path stem (absolute-path resolution adds no subdirectory). -/
def rootPfx : String := ""

/-- `pkgfs_ldsvc_load_abspath`: absolute paths are stripped of the leading
separator (`name + 1`). -/
def pkgfs_ldsvc_load_abspath (env : List (String × String))
    (blobVol : List (String × Nat)) (clone : Nat → ZxStatus)
    (name : String) : LoadResult :=
  pkgfs_ldsvc_load_blob env blobVol clone rootPfx (name.drop 1)

/-- Fixed namespace path at which the pkgfs root is installed. -/
def pathPkgfs : String := "/pkgfs"

/-- Fixed namespace path at which the system sub-view is installed. -/
def pathSystem : String := "/system"

/-- Observable steps of the bootstrap completion sequence: an installer
invocation (`g_installer(path, ...)`) and the dependent-service startup
(`fuchsia_start`). -/
inductive BootAction where
  | installAt (path : String)
  | startFuchsia
deriving DecidableEq, Repr

/-- The bound of the completion wait: `zx::deadline_after(zx::sec(5))`. -/
def pkgfs_wait_deadline : Nat := 5

/-- World data for `pkgfs_finish`: at what time (if ever) the launched
process raises `ZX_USER_SIGNAL_0` resp. terminates, and the statuses of the
two installer calls, the channel creation and the `fdio_open_at` between
them. -/
structure FinishWorld where
  sigTime : Option Nat
  termTime : Option Nat
  installPkgfs : ZxStatus
  chanCreate : ZxStatus
  openSystem : ZxStatus
  installSystem : ZxStatus
deriving DecidableEq, Repr

/-- Earliest time at which one of the two watched signals is asserted. -/
def firstEvent (sigTime termTime : Option Nat) : Option Nat :=
  match sigTime, termTime with
  | none, none => none
  | some a, none => some a
  | none, some b => some b
  | some a, some b => some (min a b)

/-- Whether `ZX_USER_SIGNAL_0` is among the signals observed at wake time
`t`. -/
def sigObservedAt (sigTime : Option Nat) (t : Nat) : Bool :=
  match sigTime with
  | some s => decide (s ≤ t)
  | none => false

/-- `pkgfs_finish`: wait (deadline 5 seconds) for the pkgfs process to raise
`ZX_USER_SIGNAL_0` or terminate; on a wait error (timeout) or termination
without the signal, do nothing.  Otherwise install the pkgfs root at
`/pkgfs`, re-export its `system` subdirectory at `/system`, and start the
appmgr; each failure along the chain returns immediately, abandoning the
remaining steps. -/
def pkgfs_finish (w : FinishWorld) : List BootAction :=
  match firstEvent w.sigTime w.termTime with
  | none => []
  | some t =>
    if pkgfs_wait_deadline < t then []
    else if ¬sigObservedAt w.sigTime t then []
    else if w.installPkgfs ≠ .ok then [.installAt pathPkgfs]
    else if w.chanCreate ≠ .ok then [.installAt pathPkgfs]
    else if w.openSystem ≠ .ok then [.installAt pathPkgfs]
    else if w.installSystem ≠ .ok then [.installAt pathPkgfs, .installAt pathSystem]
    else [.installAt pathPkgfs, .installAt pathSystem, .startFuchsia]

/-- World data for the two bootstrap launch paths: whether `open("/fs/blob")`
succeeds, whether the root-channel creations succeed, the launch statuses of
the primary (`devmgr_launch_cmdline`) and legacy (`devmgr_launch`) paths,
and the completion-wait world. -/
structure LaunchWorld where
  openBlobDirOK : Bool
  chanCreateOK : Bool
  launchStatus : ZxStatus
  oldChanCreateOK : Bool
  oldLaunchStatus : ZxStatus
  finish : FinishWorld
deriving DecidableEq, Repr

/-- Result of the legacy bootstrap path: whether it was attempted (got past
its two guards), whether the legacy binary was launched, and the bootstrap
actions performed. -/
structure OldInitResult where
  attempted : Bool
  launched : Bool
  actions : List BootAction
deriving DecidableEq, Repr

/-- `old_launch_blob_init`: the legacy single-binary bootstrap.  Does nothing
when `zircon.system.blob-init` is absent or when a secondary bootfs already
serves the system root; otherwise creates the root channel, launches the
named binary and, on success, runs `pkgfs_finish`.
(`systemServed` stands for `secondary_bootfs_ready()`, whose definition is
outside this file; modelled from the spec as "an alternate boot filesystem
already serves the system root".) -/
def old_launch_blob_init (cfg : Config) (systemServed : Bool)
    (w : LaunchWorld) : OldInitResult :=
  match cfg.blobInit with
  | none => ⟨false, false, []⟩
  | some _ =>
    if systemServed then ⟨false, false, []⟩
    else if ¬w.oldChanCreateOK then ⟨true, false, []⟩
    else if w.oldLaunchStatus ≠ .ok then ⟨true, false, []⟩
    else ⟨true, true, pkgfs_finish w.finish⟩

/-- `pkgfs_launch`: the primary bootstrap path.  Returns `false` when
`zircon.system.pkgfs.cmd` is unset, when the blob directory cannot be
opened, when the root channel cannot be created, or when the launch fails;
on a successful launch it runs `pkgfs_finish` and returns `true`. -/
def pkgfs_launch (cfg : Config) (w : LaunchWorld) : Bool × List BootAction :=
  match cfg.pkgfsCmd with
  | none => (false, [])
  | some _ =>
    if ¬w.openBlobDirOK then (false, [])
    else if ¬w.chanCreateOK then (false, [])
    else if w.launchStatus ≠ .ok then (false, [])
    else (true, pkgfs_finish w.finish)

/-- Combined result of `launch_blob_init`. -/
structure BlobInitResult where
  primaryLaunched : Bool
  legacy : OldInitResult
  actions : List BootAction
deriving DecidableEq, Repr

/-- `launch_blob_init`: try the primary path; fall back to the legacy path
exactly when `pkgfs_launch` returns `false`. -/
def launch_blob_init (cfg : Config) (systemServed : Bool)
    (w : LaunchWorld) : BlobInitResult :=
  let p := pkgfs_launch cfg w
  if p.1 then ⟨true, ⟨false, false, []⟩, p.2⟩
  else
    let o := old_launch_blob_init cfg systemServed w
    ⟨false, o, o.actions⟩

/-- The rendering of the zero counter value. -/
def zeroDigitStr : String := "0"

/-- Decimal rendering of a natural number, the model of the C `%d`
conversion used to build FAT mount paths. -/
def decimalRepr (n : Nat) : String :=
  if n = 0 then zeroDigitStr
  else ((Nat.digits 10 n).reverse.map Nat.digitChar).asString

/-- Mount-path components fixed by the source (`"/fs" PATH_SYSTEM` etc.). -/
def pathFsSystem : String := "/fs/system"

/-- `"/fs" PATH_DATA`. -/
def pathFsData : String := "/fs/data"

/-- `"/fs" PATH_INSTALL`. -/
def pathFsInstall : String := "/fs/install"

/-- `"/fs" PATH_BLOB`. -/
def pathFsBlob : String := "/fs/blob"

/-- `"/fs" PATH_VOLUME "/fat-"`, the stem of the FAT mount paths. -/
def fatPathBase : String := "/fs/volume/fat-"

/-- The mount path `snprintf("%s/fat-%d", "/fs/volume", n)` produces. -/
def fatPath (n : Nat) : String := fatPathBase ++ decimalRepr n

/-- `BOOTPART_DRIVER_LIB`. -/
def bootpartDriverLib : String := "/boot/driver/bootpart.so"

/-- `GPT_DRIVER_LIB`. -/
def gptDriverLib : String := "/boot/driver/gpt.so"

/-- `FVM_DRIVER_LIB`. -/
def fvmDriverLib : String := "/boot/driver/fvm.so"

/-- `MBR_DRIVER_LIB`. -/
def mbrDriverLib : String := "/boot/driver/mbr.so"

/-- `ZXCRYPT_DRIVER_LIB`. -/
def zxcryptDriverLib : String := "/boot/driver/zxcrypt.so"

/-- `zircon.system.volume` policy value accepting any system partition. -/
def volAny : String := "any"

/-- `zircon.system.volume` policy value accepting only non-removable system
partitions. -/
def volLocal : String := "local"

/-- The process-wide mutable state of the watcher: the three mount latches
(`data_mounted`, `install_mounted`, `blob_mounted`), the FAT mount-point
counter (`fat_counter`), and `systemServed`.
`systemServed` is Modelled from the spec: it stands for
`secondary_bootfs_ready()` (defined outside this file), "an alternate boot
filesystem is not already serving the system root"; it becomes true once a
system partition is successfully mounted at the system root, and a failed
system mount leaves it false. -/
structure FsState where
  dataMounted : Bool
  installMounted : Bool
  blobMounted : Bool
  fatCounter : Nat
  systemServed : Bool
deriving DecidableEq, Repr

/-- The state at process start: no latch set, counter zero. -/
def initState : FsState := ⟨false, false, false, 0, false⟩

/-- One observed block device together with the outcomes of the external
calls made on it: the watch-event kind, whether `openat` succeeds, whether
`ioctl_block_get_info` succeeds and the flags it reports, the detected disk
format, the type GUID (`none` when `ioctl_block_get_type_guid` does not
return `GPT_GUID_LEN` bytes), the status the `mount()` library call would
return for it, and the fsck child-process outcome for it. -/
structure Device where
  eventAdd : Bool
  openOK : Bool
  infoOK : Bool
  bootpart : Bool
  removable : Bool
  format : DiskFormat
  typeGuid : Option PartGuid
  mountStatus : ZxStatus
  fsck : FsckOutcome
deriving DecidableEq, Repr

/-- One `mount()` invocation as the watcher issues it: target path, format,
the options in force, and the status the call returned. -/
structure MountCall where
  path : String
  fmt : DiskFormat
  readonly : Bool
  waitUntilReady : Bool
  createMountpoint : Bool
  result : ZxStatus
deriving DecidableEq, Repr

/-- Externally visible actions of one watcher step. -/
inductive Action where
  | bindDriver (lib : String)
  | mountCall (c : MountCall)
  | launchBlobInitCall
deriving DecidableEq, Repr

/-- Result of `mount_minfs`: updated state, returned status, the mount calls
issued (at most one), whether the device fd was consumed by `mount()`, and
whether `fuchsia_start` was triggered. -/
structure MountMinfsResult where
  st : FsState
  status : ZxStatus
  mounts : List MountCall
  fdConsumed : Bool
  fuchsiaStarted : Bool
deriving DecidableEq, Repr

/-- The system-partition mount inside `mount_minfs`, after the policy gates:
read-only unless `zircon.system.writable` is set, blocking on readiness;
on success `fuchsia_start` runs (and the system root is then served, setting
the spec-modelled `systemServed`). -/
def mountSystemPart (cfg : Config) (st : FsState) (d : Device)
    (opts : MountOptions) : MountMinfsResult :=
  let o := { opts with readonly := !cfg.writable, waitUntilReady := true }
  let call : MountCall :=
    ⟨pathFsSystem, .minfs, o.readonly, o.waitUntilReady, o.createMountpoint,
      d.mountStatus⟩
  if d.mountStatus = .ok then
    ⟨{ st with systemServed := true }, .ok, [call], true, true⟩
  else
    ⟨st, d.mountStatus, [call], true, false⟩

/-- The data-partition mount inside `mount_minfs`, after the latch is set:
mounted at the data path, blocking on readiness. -/
def mountDataPart (st : FsState) (d : Device) (opts : MountOptions) :
    MountMinfsResult :=
  let call : MountCall :=
    ⟨pathFsData, .minfs, opts.readonly, true, opts.createMountpoint,
      d.mountStatus⟩
  ⟨{ st with dataMounted := true }, d.mountStatus, [call], true, false⟩

/-- The install-partition mount inside `mount_minfs`, after the latch is
set: mounted read-only at the install path, blocking on readiness. -/
def mountInstallPart (st : FsState) (d : Device) (opts : MountOptions) :
    MountMinfsResult :=
  let call : MountCall :=
    ⟨pathFsInstall, .minfs, true, true, opts.createMountpoint,
      d.mountStatus⟩
  ⟨{ st with installMounted := true }, d.mountStatus, [call], true, false⟩

/-- `mount_minfs`: classify the partition by type GUID and mount it at the
role's fixed path.  System: rejected when a secondary bootfs serves the
system root or `zircon.system.blob-init` is set (`ZX_ERR_ALREADY_BOUND`),
then gated by the `zircon.system.volume` policy (`ZX_ERR_BAD_STATE` on
reject).  Data and Install: the latch is checked and then set *before* the
mount call.  Any other or unreadable GUID: `ZX_ERR_INVALID_ARGS`.  The
early-return paths neither close nor hand off the device fd. -/
def mount_minfs (cfg : Config) (st : FsState) (d : Device)
    (opts : MountOptions) : MountMinfsResult :=
  match d.typeGuid with
  | none => ⟨st, .errInvalidArgs, [], false, false⟩
  | some g =>
    if g = .sys then
      if st.systemServed then ⟨st, .errAlreadyBound, [], false, false⟩
      else if cfg.blobInit.isSome then ⟨st, .errAlreadyBound, [], false, false⟩
      else if cfg.volume = some volAny then
        mountSystemPart cfg st d opts
      else if cfg.volume = some volLocal then
        if ¬d.infoOK ∨ d.removable then ⟨st, .errBadState, [], false, false⟩
        else mountSystemPart cfg st d opts
      else ⟨st, .errBadState, [], false, false⟩
    else if g = .data then
      if st.dataMounted then ⟨st, .errAlreadyBound, [], false, false⟩
      else mountDataPart st d opts
    else if g = .install then
      if st.installMounted then ⟨st, .errAlreadyBound, [], false, false⟩
      else mountInstallPart st d opts
    else ⟨st, .errInvalidArgs, [], false, false⟩

/-- Result of one `block_device_added` call: updated state, the value
returned to the watcher loop, the actions performed, whether the device fd
was opened, whether `close(fd)` was called, whether ownership of the fd was
handed to `mount()`, and whether `fuchsia_start` was triggered. -/
structure StepResult where
  st : FsState
  ret : ZxStatus
  actions : List Action
  fdOpened : Bool
  fdClosed : Bool
  fdTransferred : Bool
  fuchsiaStarted : Bool
deriving DecidableEq, Repr

/-- The result shape of the two `mount_minfs` call sites in
`block_device_added`: `mount_minfs` is invoked (taking ownership of the fd
when a mount was issued) and `ZX_OK` is returned to the watcher, the fd
never being closed here. -/
def stepOfMinfs (cfg : Config) (st : FsState) (d : Device)
    (opts : MountOptions) : StepResult :=
  let r := mount_minfs cfg st d opts
  ⟨r.st, .ok, r.mounts.map Action.mountCall, true, false, r.fdConsumed,
    r.fuchsiaStarted⟩

/-- The netboot arm of `block_device_added`: only a device whose type GUID
is the install GUID is mounted (non-blocking options); every other device
is closed untouched. -/
def netbootStage (cfg : Config) (st : FsState) (d : Device)
    (guid : PartGuid) : StepResult :=
  if guid = .install then
    stepOfMinfs cfg st d { default_mount_options with waitUntilReady := false }
  else ⟨st, .ok, [], true, true, false, false⟩

/-- The blobfs arm of `block_device_added`: wrong GUID or failed fsck closes
the fd; otherwise, when the blob latch is clear, `mount()` consumes the fd
and on success the latch is set and `launch_blob_init` runs; when the latch
is already set nothing happens (and the fd is neither closed nor handed
off). -/
def blobfsStage (cfg : Config) (st : FsState) (d : Device)
    (guid : PartGuid) : StepResult :=
  if guid ≠ .blob then ⟨st, .ok, [], true, true, false, false⟩
  else if fshost_fsck cfg.checkEnabled d.fsck ≠ .ok then
    ⟨st, .ok, [], true, true, false, false⟩
  else if ¬st.blobMounted then
    let call : MountCall :=
      ⟨pathFsBlob, .blobfs, default_mount_options.readonly,
        default_mount_options.waitUntilReady,
        default_mount_options.createMountpoint, d.mountStatus⟩
    if d.mountStatus = .ok then
      ⟨{ st with blobMounted := true }, .ok,
        [.mountCall call, .launchBlobInitCall], true, false, true, false⟩
    else ⟨st, .ok, [.mountCall call], true, false, true, false⟩
  else ⟨st, .ok, [], true, false, false, false⟩

/-- The minfs arm of `block_device_added`: a failed fsck closes the fd;
otherwise `mount_minfs` runs with non-blocking default options. -/
def minfsStage (cfg : Config) (st : FsState) (d : Device) : StepResult :=
  if fshost_fsck cfg.checkEnabled d.fsck ≠ .ok then
    ⟨st, .ok, [], true, true, false, false⟩
  else
    stepOfMinfs cfg st d { default_mount_options with waitUntilReady := false }

/-- The FAT arm of `block_device_added`: an EFI-GUID partition is closed
without mounting; any other FAT volume is mounted (fd consumed) at the
fresh `fat-<counter>` path with mountpoint creation and without blocking on
readiness, and the counter is incremented. -/
def fatStage (st : FsState) (d : Device) : StepResult :=
  if d.typeGuid = some PartGuid.efi then
    ⟨st, .ok, [], true, true, false, false⟩
  else
    let call : MountCall :=
      ⟨fatPath st.fatCounter, .fat, default_mount_options.readonly, false,
        true, d.mountStatus⟩
    ⟨{ st with fatCounter := st.fatCounter + 1 }, .ok, [.mountCall call],
      true, false, true, false⟩

/-- The stage of `block_device_added` past the boot-partition and container
dispatch: read the type GUID (empty when unreadable), restrict to the
install partition in netboot mode, and otherwise dispatch on the filesystem
format (anything unrecognized is closed untouched). -/
def fsStage (cfg : Config) (netboot : Bool) (st : FsState) (d : Device) :
    StepResult :=
  let guid := d.typeGuid.getD .empty
  if netboot then netbootStage cfg st d guid
  else
    match d.format with
    | .blobfs => blobfsStage cfg st d guid
    | .minfs => minfsStage cfg st d
    | .fat => fatStage st d
    | _ => ⟨st, .ok, [], true, true, false, false⟩

/-- `block_device_added`, the directory-watch callback, translated branch by
branch from the source: ignore non-add events; open the device; bind the
bootpart driver for boot partitions; bind sub-drivers for the four
partition-container formats; then hand over to `fsStage` (netboot
restriction and the per-filesystem arms), closing the fd on the early-exit
branches exactly where the source does. -/
def block_device_added (cfg : Config) (netboot : Bool) (st : FsState)
    (d : Device) : StepResult :=
  if ¬d.eventAdd then ⟨st, .ok, [], false, false, false, false⟩
  else if ¬d.openOK then ⟨st, .ok, [], false, false, false, false⟩
  else if d.infoOK ∧ d.bootpart then
    ⟨st, .ok, [.bindDriver bootpartDriverLib], true, true, false, false⟩
  else
    match d.format with
    | .gpt => ⟨st, .ok, [.bindDriver gptDriverLib], true, true, false, false⟩
    | .fvm => ⟨st, .ok, [.bindDriver fvmDriverLib], true, true, false, false⟩
    | .mbr => ⟨st, .ok, [.bindDriver mbrDriverLib], true, true, false, false⟩
    | .zxcrypt =>
      ⟨st, .ok, [.bindDriver zxcryptDriverLib], true, true, false, false⟩
    | _ => fsStage cfg netboot st d

/-- Run the watcher callback over a sequence of arriving devices, threading
the process-wide state, and collect the per-device results. -/
def runDevices (cfg : Config) (netboot : Bool) (st : FsState) :
    List Device → FsState × List StepResult
  | [] => (st, [])
  | d :: ds =>
    let r := block_device_added cfg netboot st d
    let rest := runDevices cfg netboot r.st ds
    (rest.1, r :: rest.2)

/-- The mount calls a step issued. -/
def mountCallsOf (r : StepResult) : List MountCall :=
  r.actions.filterMap fun a =>
    match a with
    | .mountCall c => some c
    | _ => none

/-- All mount calls of a run, in order. -/
def mountCallsAll (rs : List StepResult) : List MountCall :=
  (rs.map mountCallsOf).flatten

/-- Number of mount calls of a run aimed at path `p`. -/
def countMountsAt (p : String) (rs : List StepResult) : Nat :=
  (mountCallsAll rs).countP fun c => c.path = p

/-- Number of successful mount calls of a run aimed at path `p`. -/
def countOkMountsAt (p : String) (rs : List StepResult) : Nat :=
  (mountCallsAll rs).countP fun c => c.path = p ∧ c.result = ZxStatus.ok

/-- A 231-character logical name; together with the 25-character key base it
overflows the 256-byte key buffer. -/
def longName : String := String.mk (List.replicate 231 'a')

/-- The manifest key built for `longName` (length 256). -/
def longKey : String := pkgfsFileKeyBase ++ longName

/-- A sample blob identifier. -/
def blobIdA : String := "4a892b...cafe"

/-- A sample resolvable logical name. -/
def nameA : String := "bin/pkgsvr"

/-- A sample legacy blob-init path. -/
def initArgA : String := "/blob/init-id"

/-- A sample primary launch command line. -/
def cmdA : String := "bin/pkgsvr arg"

/-- Potential of a latch: 1 while clear, 0 once set. -/
def potBool (b : Bool) : Nat := if b then 0 else 1

/-- Mount calls of one step aimed at path `p`. -/
def stepMountsAt (p : String) (r : StepResult) : Nat :=
  (mountCallsOf r).countP fun c => c.path = p

/-- Successful mount calls of one step aimed at path `p`. -/
def stepOkMountsAt (p : String) (r : StepResult) : Nat :=
  (mountCallsOf r).countP fun c => c.path = p ∧ c.result = ZxStatus.ok

/-- The FAT mount paths of a run, in order. -/
def fatMountPaths (rs : List StepResult) : List String :=
  ((mountCallsAll rs).filter fun c => c.fmt = DiskFormat.fat).map
    MountCall.path

/-- Invariant of one `mount_minfs` call, relating its result to the starting
state: each latched role gains at most the potential the latch releases, a
system mount counts only on success, no blob mount is issued, every call is
a minfs mount, and the blob latch and FAT counter are untouched. -/
def MinfsInv (st : FsState) (m : MountMinfsResult) : Prop :=
  ((m.mounts.countP fun c => c.path = pathFsData) +
      potBool m.st.dataMounted ≤ potBool st.dataMounted) ∧
  ((m.mounts.countP fun c => c.path = pathFsInstall) +
      potBool m.st.installMounted ≤ potBool st.installMounted) ∧
  ((m.mounts.countP fun c => c.path = pathFsSystem ∧
        c.result = ZxStatus.ok) +
      potBool m.st.systemServed ≤ potBool st.systemServed) ∧
  ((m.mounts.countP fun c => c.path = pathFsBlob) = 0) ∧
  (∀ c ∈ m.mounts, c.fmt = DiskFormat.minfs) ∧
  m.st.blobMounted = st.blobMounted ∧
  m.st.fatCounter = st.fatCounter

/-- Invariant of one watcher step, relating its result to the starting
state: the singleton-role counts obey the latch potentials, the blob latch
blocks further blob mounts and is only set by a successful mount, and the
step either issues no FAT mount and keeps the counter, or issues exactly
one at the current counter value and increments it. -/
def StepInv (st : FsState) (d : Device) (r : StepResult) : Prop :=
  (stepMountsAt pathFsData r + potBool r.st.dataMounted ≤
    potBool st.dataMounted) ∧
  (stepMountsAt pathFsInstall r + potBool r.st.installMounted ≤
    potBool st.installMounted) ∧
  (stepOkMountsAt pathFsSystem r + potBool r.st.systemServed ≤
    potBool st.systemServed) ∧
  (stepOkMountsAt pathFsBlob r + potBool r.st.blobMounted ≤
    potBool st.blobMounted) ∧
  (st.blobMounted = true → stepMountsAt pathFsBlob r = 0 ∧
    r.st.blobMounted = true) ∧
  (r.st.blobMounted = true → st.blobMounted = true ∨
    d.mountStatus = ZxStatus.ok) ∧
  ((fatMountPaths [r] = [] ∧ r.st.fatCounter = st.fatCounter) ∨
    (fatMountPaths [r] = [fatPath st.fatCounter] ∧
      r.st.fatCounter = st.fatCounter + 1))

end Devmgr

namespace Devmgr

/-- C10: a logical name whose constructed manifest key does not fit the
256-byte key buffer makes `pkgfs_ldsvc_load_blob` return `ZX_ERR_BAD_PATH`
(a class distinct from `ZX_ERR_NOT_FOUND`), opening no blob and returning no
content; the result is the same for every boot configuration and blob
volume, so neither is consulted. -/
theorem c10_key_overflow_bad_path (env : List (String × String))
    (blobVol : List (String × Nat)) (clone : Nat → ZxStatus)
    (pfx name : String)
    (h : 256 ≤ (pkgfsFileKeyBase ++ pfx ++ name).length) :
    pkgfs_ldsvc_load_blob env blobVol clone pfx name =
      ⟨.errBadPath, none, none⟩ := by
  unfold pkgfs_ldsvc_load_blob
  rw [if_pos h]

set_option maxRecDepth 4096 in
/-- Witness for C10 at a concrete overflowing name. -/
theorem c10_key_overflow_bad_path_witness :
    256 ≤ (pkgfsFileKeyBase ++ rootPfx ++ longName).length ∧
    pkgfs_ldsvc_load_blob [(longKey, blobIdA)] [(blobIdA, 7)]
      (fun _ => ZxStatus.ok) rootPfx longName = ⟨.errBadPath, none, none⟩ :=
  ⟨by decide,
   c10_key_overflow_bad_path [(longKey, blobIdA)] [(blobIdA, 7)]
     (fun _ => ZxStatus.ok) rootPfx longName (by decide)⟩

set_option maxRecDepth 4096 in
/-- C7 counterexample: a name whose key IS present in the boot configuration
(with a blob that would open), but whose key is 256 characters long: the
resolver returns `ZX_ERR_BAD_PATH` and opens nothing, while the claim as
stated promises that the named blob is opened (and that any miss surfaces as
"not found"). -/
theorem c7_counterexample :
    getenv [(longKey, blobIdA)] (pkgfsFileKeyBase ++ rootPfx ++ longName) =
      some blobIdA ∧
    (longKey, blobIdA) ∈ [(longKey, blobIdA)] ∧
    pkgfs_ldsvc_load_blob [(longKey, blobIdA)] [(blobIdA, 7)]
      (fun _ => ZxStatus.ok) rootPfx longName =
      ⟨.errBadPath, none, none⟩ := by
  refine ⟨by decide, by decide, ?_⟩
  decide

/-- C7 (amended: restricted to names whose constructed key fits the 256-byte
key buffer): a key present in the boot configuration resolves to exactly the
blob its value names with exactly that blob's content; an absent key, or a
blob that fails to open, yields `ZX_ERR_NOT_FOUND` with no blob opened and
no content — never different content. -/
theorem c7_manifest_round_trip (env : List (String × String))
    (blobVol : List (String × Nat)) (clone : Nat → ZxStatus)
    (pfx name : String)
    (hfit : (pkgfsFileKeyBase ++ pfx ++ name).length < 256) :
    (∀ blob c, getenv env (pkgfsFileKeyBase ++ pfx ++ name) = some blob →
      blobVol.lookup blob = some c → clone c = .ok →
      pkgfs_ldsvc_load_blob env blobVol clone pfx name =
        ⟨.ok, some blob, some c⟩) ∧
    (getenv env (pkgfsFileKeyBase ++ pfx ++ name) = none →
      pkgfs_ldsvc_load_blob env blobVol clone pfx name =
        ⟨.errNotFound, none, none⟩) ∧
    (∀ blob, getenv env (pkgfsFileKeyBase ++ pfx ++ name) = some blob →
      blobVol.lookup blob = none →
      pkgfs_ldsvc_load_blob env blobVol clone pfx name =
        ⟨.errNotFound, none, none⟩) := by
  have hnot : ¬256 ≤ (pkgfsFileKeyBase ++ pfx ++ name).length :=
    Nat.not_le.mpr hfit
  simp only [String.length_append] at hfit
  refine ⟨?_, ?_, ?_⟩
  · intro blob c h1 h2 h3
    unfold pkgfs_ldsvc_load_blob
    simp [hnot, h1, h2, h3]
    omega
  · intro h1
    unfold pkgfs_ldsvc_load_blob
    simp [hnot, h1]
    omega
  · intro blob h1 h2
    unfold pkgfs_ldsvc_load_blob
    simp [hnot, h1, h2]
    omega

/-- Witness for C7 at a concrete manifest. -/
theorem c7_manifest_round_trip_witness :
    pkgfs_ldsvc_load_blob [(pkgfsFileKeyBase ++ nameA, blobIdA)]
      [(blobIdA, 7)] (fun _ => ZxStatus.ok) rootPfx nameA =
      ⟨.ok, some blobIdA, some 7⟩ ∧
    pkgfs_ldsvc_load_blob [] [(blobIdA, 7)] (fun _ => ZxStatus.ok) rootPfx nameA =
      ⟨.errNotFound, none, none⟩ :=
  ⟨(c7_manifest_round_trip [(pkgfsFileKeyBase ++ nameA, blobIdA)]
      [(blobIdA, 7)] (fun _ => ZxStatus.ok) rootPfx nameA (by decide)).1
      blobIdA 7 (by decide) (by decide) rfl,
   (c7_manifest_round_trip [] [(blobIdA, 7)]
      (fun _ => ZxStatus.ok) rootPfx nameA (by decide)).2.1 (by decide)⟩

/-- C6: in the completion wait (bounded at 5 time-units): if the process
raises the ready signal within the bound (and no earlier termination hides
it), the pkgfs root is installed at `/pkgfs` and then the system sub-view at
`/system`, each exactly once and in that order, followed by the
dependent-service startup; an installer failure in the chain aborts the
remaining steps without retry.  If the process terminates without having
raised the signal, or the wait times out, neither installation occurs. -/
theorem c6_bootstrap_readiness (w : FinishWorld) :
    (∀ s, w.sigTime = some s → s ≤ pkgfs_wait_deadline →
      (∀ u, w.termTime = some u → s ≤ u) →
      (w.installPkgfs = .ok → w.chanCreate = .ok → w.openSystem = .ok →
        w.installSystem = .ok →
        pkgfs_finish w =
          [.installAt pathPkgfs, .installAt pathSystem, .startFuchsia]) ∧
      (w.installPkgfs ≠ .ok → pkgfs_finish w = [.installAt pathPkgfs]) ∧
      (w.installPkgfs = .ok → w.chanCreate = .ok → w.openSystem = .ok →
        w.installSystem ≠ .ok →
        pkgfs_finish w = [.installAt pathPkgfs, .installAt pathSystem])) ∧
    (∀ u, w.termTime = some u → u ≤ pkgfs_wait_deadline →
      (∀ s, w.sigTime = some s → u < s) → pkgfs_finish w = []) ∧
    ((∀ t, firstEvent w.sigTime w.termTime = some t →
        pkgfs_wait_deadline < t) → pkgfs_finish w = []) := by
  obtain ⟨sig, term, i1, cc, os, i2⟩ := w
  refine ⟨?_, ?_, ?_⟩
  · intro s hs hle hterm
    subst hs
    cases term with
    | none =>
      refine ⟨?_, ?_, ?_⟩ <;>
        · intros
          simp_all [pkgfs_finish, firstEvent, sigObservedAt,
            Nat.not_lt.mpr hle]
    | some u =>
      have hsu : s ≤ u := hterm u rfl
      have hmin : min s u = s := Nat.min_eq_left hsu
      refine ⟨?_, ?_, ?_⟩ <;>
        · intros
          simp_all [pkgfs_finish, firstEvent, sigObservedAt, hmin,
            Nat.not_lt.mpr hle]
  · intro u hu hle hsig
    subst hu
    cases sig with
    | none =>
      simp [pkgfs_finish, firstEvent, sigObservedAt, Nat.not_lt.mpr hle]
    | some s =>
      have hus : u < s := hsig s rfl
      have hmin : min s u = u := Nat.min_eq_right (Nat.le_of_lt hus)
      simp [pkgfs_finish, firstEvent, sigObservedAt, hmin,
        Nat.not_lt.mpr hle, Nat.not_le.mpr hus]
  · intro hlate
    cases sig with
    | none =>
      cases term with
      | none => simp [pkgfs_finish, firstEvent]
      | some u =>
        have := hlate u (by simp [firstEvent])
        simp [pkgfs_finish, firstEvent, this]
    | some s =>
      cases term with
      | none =>
        have := hlate s (by simp [firstEvent])
        simp [pkgfs_finish, firstEvent, this]
      | some u =>
        have := hlate (min s u) (by simp [firstEvent])
        simp [pkgfs_finish, firstEvent, this]

/-- Witness for C6: ready signal at time 3, termination at time 4, all
installers succeed; and a termination at time 2 without a signal. -/
theorem c6_bootstrap_readiness_witness :
    pkgfs_finish ⟨some 3, some 4, .ok, .ok, .ok, .ok⟩ =
      [.installAt pathPkgfs, .installAt pathSystem, .startFuchsia] ∧
    pkgfs_finish ⟨none, some 2, .ok, .ok, .ok, .ok⟩ = [] :=
  ⟨((c6_bootstrap_readiness ⟨some 3, some 4, .ok, .ok, .ok, .ok⟩).1 3 rfl
      (by decide) (by intro u hu; cases hu; decide)).1 rfl rfl rfl rfl,
   (c6_bootstrap_readiness ⟨none, some 2, .ok, .ok, .ok, .ok⟩).2.1 2 rfl
      (by decide) (by intro s hs; cases hs)⟩

/-- C5: with `zircon.system.filesystem-check` unset the pre-mount check is
skipped entirely and returns `ZX_OK`; with it set, a device (minfs- or
blobfs-formatted, the only formats checked) whose check fails — non-zero
child exit or any launch/wait/inspect failure, i.e. `launch_fsck ≠ ZX_OK` —
is not mounted, its handle is closed, the state is unchanged and the handler
returns `ZX_OK` so later devices are still processed. -/
theorem c5_fsck_gating (cfg : Config) (st : FsState) (d : Device)
    (oc : FsckOutcome) :
    fshost_fsck false oc = .ok ∧
    (cfg.checkEnabled = true → launch_fsck d.fsck ≠ .ok →
      (d.format = .minfs ∨ d.format = .blobfs) →
      d.eventAdd = true → d.openOK = true → ¬(d.infoOK ∧ d.bootpart) →
      mountCallsOf (block_device_added cfg false st d) = [] ∧
      (block_device_added cfg false st d).fdClosed = true ∧
      (block_device_added cfg false st d).ret = .ok ∧
      (block_device_added cfg false st d).st = st) := by
  refine ⟨by simp [fshost_fsck], ?_⟩
  intro hc hl hfmt hadd hopen hbp
  have hfsck : fshost_fsck cfg.checkEnabled d.fsck ≠ .ok := by
    simp [fshost_fsck, hc, hl]
  rcases hfmt with hf | hf <;>
    · unfold block_device_added fsStage minfsStage blobfsStage
      simp [hadd, hopen, hbp, hf, hfsck, mountCallsOf]

/-- Witness for C5: an enabled check whose child exits with code 1 on a
minfs device. -/
theorem c5_fsck_gating_witness :
    mountCallsOf (block_device_added ⟨none, none, none, none, false, true⟩
      false initState
      ⟨true, true, true, false, false, .minfs, some .data, .ok,
        ⟨.ok, .ok, .ok, 1⟩⟩) = [] ∧
    (block_device_added ⟨none, none, none, none, false, true⟩ false initState
      ⟨true, true, true, false, false, .minfs, some .data, .ok,
        ⟨.ok, .ok, .ok, 1⟩⟩).fdClosed = true :=
  ⟨((c5_fsck_gating ⟨none, none, none, none, false, true⟩ initState
      ⟨true, true, true, false, false, .minfs, some .data, .ok,
        ⟨.ok, .ok, .ok, 1⟩⟩ ⟨.ok, .ok, .ok, 0⟩).2 rfl (by decide)
      (Or.inl rfl) rfl rfl (by decide)).1,
   ((c5_fsck_gating ⟨none, none, none, none, false, true⟩ initState
      ⟨true, true, true, false, false, .minfs, some .data, .ok,
        ⟨.ok, .ok, .ok, 1⟩⟩ ⟨.ok, .ok, .ok, 0⟩).2 rfl (by decide)
      (Or.inl rfl) rfl rfl (by decide)).2.1⟩

/-- C9 counterexample: the primary launch command IS configured, but opening
the blob directory fails, so `pkgfs_launch` returns `false` and the legacy
path is attempted anyway — refuting "attempted if and only if no primary
launch command is configured". -/
theorem c9_counterexample :
    (some cmdA).isSome = true ∧
    (launch_blob_init ⟨some initArgA, none, some cmdA, none, false, false⟩
      false
      ⟨false, true, .ok, true, .ok,
        ⟨none, none, .ok, .ok, .ok, .ok⟩⟩).legacy.attempted = true := by
  exact ⟨rfl, rfl⟩

/-- C9 (amended): the legacy path is attempted exactly when the primary path
reports failure (`pkgfs_launch` returns `false`: no launch command
configured, blob-directory open failure, channel-creation failure, or launch
failure) and its own guards pass (`zircon.system.blob-init` present, no
alternate boot filesystem serving the system root); an absent launch command
always makes the primary path report failure; and after a successful primary
launch the legacy path is not attempted. -/
theorem c9_legacy_fallback (cfg : Config) (served : Bool) (w : LaunchWorld) :
    ((launch_blob_init cfg served w).legacy.attempted = true ↔
      ((pkgfs_launch cfg w).1 = false ∧ cfg.blobInit.isSome = true ∧
        served = false)) ∧
    (cfg.pkgfsCmd = none → (pkgfs_launch cfg w).1 = false) ∧
    ((pkgfs_launch cfg w).1 = true →
      (launch_blob_init cfg served w).legacy.attempted = false) := by
  obtain ⟨bi, ba, cmd, vol, wr, ce⟩ := cfg
  obtain ⟨ob, cc, ls, occ, ols, fw⟩ := w
  refine ⟨?_, ?_, ?_⟩ <;>
    cases cmd <;> cases bi <;> cases served <;>
      simp [launch_blob_init, pkgfs_launch, old_launch_blob_init] <;>
      split_ifs <;> simp_all

/-- Witness for C9: no launch command configured, legacy argument present,
system root not served: the legacy path is attempted. -/
theorem c9_legacy_fallback_witness :
    (launch_blob_init ⟨some initArgA, none, none, none, false, false⟩ false
      ⟨true, true, .ok, true, .ok,
        ⟨none, none, .ok, .ok, .ok, .ok⟩⟩).legacy.attempted = true :=
  ((c9_legacy_fallback ⟨some initArgA, none, none, none, false, false⟩ false
      ⟨true, true, .ok, true, .ok, ⟨none, none, .ok, .ok, .ok, .ok⟩⟩).1).mpr
    ⟨(c9_legacy_fallback ⟨some initArgA, none, none, none, false, false⟩
        false
        ⟨true, true, .ok, true, .ok, ⟨none, none, .ok, .ok, .ok, .ok⟩⟩).2.1
      rfl, rfl, rfl⟩

/-- `Nat.digitChar` is injective on decimal digits. -/
theorem digitChar_inj_lt10 (a b : Nat) (ha : a < 10) (hb : b < 10)
    (h : Nat.digitChar a = Nat.digitChar b) : a = b := by
  interval_cases a <;> interval_cases b <;> revert h <;> decide

/-- Mapping `Nat.digitChar` over digit lists is injective. -/
theorem map_digitChar_inj (l1 : List Nat) :
    ∀ l2 : List Nat, (∀ d ∈ l1, d < 10) → (∀ d ∈ l2, d < 10) →
      l1.map Nat.digitChar = l2.map Nat.digitChar → l1 = l2 := by
  induction l1 with
  | nil =>
    intro l2 _ _ h
    cases l2 <;> simp_all
  | cons a t ih =>
    intro l2 h1 h2 h
    cases l2 with
    | nil => simp_all
    | cons b t2 =>
      simp only [List.map_cons, List.cons.injEq] at h
      have hab : a = b :=
        digitChar_inj_lt10 a b (h1 a (by simp)) (h2 b (by simp)) h.1
      subst hab
      have ht : t = t2 :=
        ih t2 (fun d hd => h1 d (by simp [hd]))
          (fun d hd => h2 d (by simp [hd])) h.2
      simp [ht]

/-- The decimal rendering (`%d`) is injective. -/
theorem decimalRepr_injective : Function.Injective decimalRepr := by
  intro m n h
  unfold decimalRepr at h
  by_cases hm : m = 0 <;> by_cases hn : n = 0
  · omega
  · exfalso
    rw [if_pos hm, if_neg hn] at h
    have hd : [('0' : Char)] = (Nat.digits 10 n).reverse.map Nat.digitChar :=
      congrArg String.data h
    cases hr : (Nat.digits 10 n).reverse with
    | nil => rw [hr] at hd; simp at hd
    | cons d t =>
      rw [hr] at hd
      simp only [List.map_cons, List.cons.injEq] at hd
      have hdm : d ∈ Nat.digits 10 n := by
        have : d ∈ (Nat.digits 10 n).reverse := by rw [hr]; simp
        simpa using this
      have hdlt : d < 10 := Nat.digits_lt_base (by norm_num) hdm
      have hd0 : d = 0 := by
        have : Nat.digitChar d = Nat.digitChar 0 := hd.1.symm
        exact digitChar_inj_lt10 d 0 hdlt (by norm_num) this
      have htn : t = [] := by simpa using hd.2.symm
      have hdig : Nat.digits 10 n = [0] := by
        have : (Nat.digits 10 n).reverse = [0] := by rw [hr, hd0, htn]
        have h2 := congrArg List.reverse this
        simpa using h2
      have : n = 0 := by
        have := Nat.ofDigits_digits 10 n
        rw [hdig] at this
        simpa [Nat.ofDigits] using this.symm
      exact hn this
  · exfalso
    rw [if_neg hm, if_pos hn] at h
    have hd : (Nat.digits 10 m).reverse.map Nat.digitChar = [('0' : Char)] :=
      congrArg String.data h
    cases hr : (Nat.digits 10 m).reverse with
    | nil => rw [hr] at hd; simp at hd
    | cons d t =>
      rw [hr] at hd
      simp only [List.map_cons, List.cons.injEq] at hd
      have hdm : d ∈ Nat.digits 10 m := by
        have : d ∈ (Nat.digits 10 m).reverse := by rw [hr]; simp
        simpa using this
      have hdlt : d < 10 := Nat.digits_lt_base (by norm_num) hdm
      have hd0 : d = 0 := by
        have : Nat.digitChar d = Nat.digitChar 0 := hd.1
        exact digitChar_inj_lt10 d 0 hdlt (by norm_num) this
      have htm : t = [] := by simpa using hd.2
      have hdig : Nat.digits 10 m = [0] := by
        have : (Nat.digits 10 m).reverse = [0] := by rw [hr, hd0, htm]
        have h2 := congrArg List.reverse this
        simpa using h2
      have : m = 0 := by
        have := Nat.ofDigits_digits 10 m
        rw [hdig] at this
        simpa [Nat.ofDigits] using this.symm
      exact hm this
  · rw [if_neg hm, if_neg hn] at h
    have hd : (Nat.digits 10 m).reverse.map Nat.digitChar =
        (Nat.digits 10 n).reverse.map Nat.digitChar :=
      congrArg String.data h
    have hrev : (Nat.digits 10 m).reverse = (Nat.digits 10 n).reverse := by
      refine map_digitChar_inj _ _ ?_ ?_ hd <;>
        · intro d hdm
          exact Nat.digits_lt_base (by norm_num) (by simpa using hdm)
    have hdig : Nat.digits 10 m = Nat.digits 10 n :=
      List.reverse_injective hrev
    exact Nat.digits_inj_iff.mp hdig

/-- `fatPath` assigns distinct paths to distinct counter values. -/
theorem fatPath_injective : Function.Injective fatPath := by
  intro a b h
  unfold fatPath at h
  have : decimalRepr a = decimalRepr b := by
    have hd := congrArg String.data h
    simp only [String.data_append] at hd
    have := List.append_cancel_left hd
    cases he1 : decimalRepr a with
    | mk l1 =>
      cases he2 : decimalRepr b with
      | mk l2 =>
        rw [he1, he2] at this
        simp_all
  exact decimalRepr_injective this

/-- The character list behind a FAT mount path is the stem followed by the
rendered counter. -/
theorem fatPath_data_eq (n : Nat) :
    (fatPath n).data = fatPathBase.data ++ (decimalRepr n).data := by
  simp [fatPath]

/-- The fifth character of every FAT mount path is the `v` of `volume`. -/
theorem fatPath_get4 (n : Nat) : (fatPath n).data[4]? = some 'v' := by
  rw [fatPath_data_eq]
  rw [List.getElem?_append_left (by decide)]
  decide

/-- FAT mount paths never collide with the system path. -/
theorem fatPath_ne_sys (n : Nat) : fatPath n ≠ pathFsSystem := by
  intro h
  have h4 : (fatPath n).data[4]? = pathFsSystem.data[4]? := by rw [h]
  rw [fatPath_get4] at h4
  exact absurd h4 (by decide)

/-- FAT mount paths never collide with the data path. -/
theorem fatPath_ne_data (n : Nat) : fatPath n ≠ pathFsData := by
  intro h
  have h4 : (fatPath n).data[4]? = pathFsData.data[4]? := by rw [h]
  rw [fatPath_get4] at h4
  exact absurd h4 (by decide)

/-- FAT mount paths never collide with the install path. -/
theorem fatPath_ne_install (n : Nat) : fatPath n ≠ pathFsInstall := by
  intro h
  have h4 : (fatPath n).data[4]? = pathFsInstall.data[4]? := by rw [h]
  rw [fatPath_get4] at h4
  exact absurd h4 (by decide)

/-- FAT mount paths never collide with the blob path. -/
theorem fatPath_ne_blob (n : Nat) : fatPath n ≠ pathFsBlob := by
  intro h
  have h4 : (fatPath n).data[4]? = pathFsBlob.data[4]? := by rw [h]
  rw [fatPath_get4] at h4
  exact absurd h4 (by decide)

/-- A `mount_minfs` result that issues no mount and leaves the state intact
satisfies the invariant. -/
theorem minfsInv_triv (st : FsState) (code : ZxStatus) :
    MinfsInv st ⟨st, code, [], false, false⟩ := by
  simp [MinfsInv, potBool]

/-- The data-partition mount preserves the invariant when the latch was
clear. -/
theorem mountDataPart_inv (st : FsState) (d : Device) (opts : MountOptions)
    (h : st.dataMounted = false) : MinfsInv st (mountDataPart st d opts) := by
  simp [MinfsInv, mountDataPart, potBool, h, pathFsData, pathFsInstall,
    pathFsSystem, pathFsBlob]

/-- The install-partition mount preserves the invariant when the latch was
clear. -/
theorem mountInstallPart_inv (st : FsState) (d : Device)
    (opts : MountOptions) (h : st.installMounted = false) :
    MinfsInv st (mountInstallPart st d opts) := by
  simp [MinfsInv, mountInstallPart, potBool, h, pathFsData, pathFsInstall,
    pathFsSystem, pathFsBlob]

/-- The system-partition mount preserves the invariant when the system root
was not yet served. -/
theorem mountSystemPart_inv (cfg : Config) (st : FsState) (d : Device)
    (opts : MountOptions) (h : st.systemServed = false) :
    MinfsInv st (mountSystemPart cfg st d opts) := by
  by_cases hms : d.mountStatus = ZxStatus.ok <;>
    simp [MinfsInv, mountSystemPart, potBool, h, hms, pathFsData,
      pathFsInstall, pathFsSystem, pathFsBlob]

/-- Every `mount_minfs` call obeys the invariant. -/
theorem mount_minfs_inv (cfg : Config) (st : FsState) (d : Device)
    (opts : MountOptions) : MinfsInv st (mount_minfs cfg st d opts) := by
  rcases htg : d.typeGuid with _ | g
  · simp only [mount_minfs, htg]
    exact minfsInv_triv st _
  · simp only [mount_minfs, htg]
    by_cases h1 : g = PartGuid.sys
    · subst h1
      rw [if_pos rfl]
      by_cases hss : st.systemServed
      · rw [if_pos hss]; exact minfsInv_triv st _
      · rw [if_neg hss]
        by_cases hbi : cfg.blobInit.isSome
        · rw [if_pos hbi]; exact minfsInv_triv st _
        · rw [if_neg hbi]
          by_cases hva : cfg.volume = some volAny
          · rw [if_pos hva]
            exact mountSystemPart_inv cfg st d opts (by simpa using hss)
          · rw [if_neg hva]
            by_cases hvl : cfg.volume = some volLocal
            · rw [if_pos hvl]
              by_cases hrem : ¬d.infoOK ∨ d.removable
              · rw [if_pos hrem]; exact minfsInv_triv st _
              · rw [if_neg hrem]
                exact mountSystemPart_inv cfg st d opts (by simpa using hss)
            · rw [if_neg hvl]; exact minfsInv_triv st _
    · rw [if_neg h1]
      by_cases h2 : g = PartGuid.data
      · subst h2
        rw [if_pos rfl]
        by_cases hsd : st.dataMounted
        · rw [if_pos hsd]; exact minfsInv_triv st _
        · rw [if_neg hsd]
          exact mountDataPart_inv st d opts (by simpa using hsd)
      · rw [if_neg h2]
        by_cases h3 : g = PartGuid.install
        · subst h3
          rw [if_pos rfl]
          by_cases hsi : st.installMounted
          · rw [if_pos hsi]; exact minfsInv_triv st _
          · rw [if_neg hsi]
            exact mountInstallPart_inv st d opts (by simpa using hsi)
        · rw [if_neg h3]; exact minfsInv_triv st _

end Devmgr
namespace Devmgr

/-- Extracting the mount calls back out of a mapped action list. -/
theorem filterMap_mountCall (l : List MountCall) :
    (l.map Action.mountCall).filterMap (fun a =>
      match a with
      | Action.mountCall c => some c
      | _ => none) = l := by
  induction l <;> simp_all

/-- A step that issues no mount and keeps the state satisfies the step
invariant. -/
theorem stepInv_noMounts (st : FsState) (d : Device) (r : StepResult)
    (h : mountCallsOf r = []) (h2 : r.st = st) : StepInv st d r := by
  simp [StepInv, stepMountsAt, stepOkMountsAt, fatMountPaths, mountCallsAll,
    h, h2, potBool]
  exact fun hb => Or.inl hb

/-- A step that delegates to `mount_minfs` satisfies the step invariant. -/
theorem stepInv_of_minfs (cfg : Config) (st : FsState) (d : Device)
    (opts : MountOptions) : StepInv st d (stepOfMinfs cfg st d opts) := by
  obtain ⟨h1, h2, h3, h4, h5, h6, h7⟩ := mount_minfs_inv cfg st d opts
  have hcalls : mountCallsOf (stepOfMinfs cfg st d opts) =
      (mount_minfs cfg st d opts).mounts := by
    simp only [stepOfMinfs, mountCallsOf]
    exact filterMap_mountCall (mount_minfs cfg st d opts).mounts
  have hst : (stepOfMinfs cfg st d opts).st = (mount_minfs cfg st d opts).st :=
    rfl
  refine ⟨?_, ?_, ?_, ?_, ?_, ?_, ?_⟩
  · simpa [stepMountsAt, hcalls, hst] using h1
  · simpa [stepMountsAt, hcalls, hst] using h2
  · simpa [stepOkMountsAt, hcalls, hst] using h3
  · have hle : stepOkMountsAt pathFsBlob (stepOfMinfs cfg st d opts) ≤
        stepMountsAt pathFsBlob (stepOfMinfs cfg st d opts) := by
      unfold stepOkMountsAt stepMountsAt
      exact List.countP_mono_left (by intro c _ hc; simp_all)
    have hz : stepMountsAt pathFsBlob (stepOfMinfs cfg st d opts) = 0 := by
      simpa [stepMountsAt, hcalls] using h4
    rw [hst, h6]
    omega
  · intro hb
    constructor
    · simpa [stepMountsAt, hcalls] using h4
    · rw [hst, h6]; exact hb
  · intro hb
    left
    rw [hst, h6] at hb
    exact hb
  · left
    constructor
    · unfold fatMountPaths mountCallsAll
      simp only [List.map_cons, List.map_nil, List.flatten_cons,
        List.flatten_nil, List.append_nil, hcalls]
      rw [List.filter_eq_nil_iff.mpr]
      · simp
      · intro c hc
        simp [h5 c hc]
    · rw [hst, h7]

/-- The netboot arm satisfies the step invariant. -/
theorem netbootStage_inv (cfg : Config) (st : FsState) (d : Device)
    (guid : PartGuid) : StepInv st d (netbootStage cfg st d guid) := by
  unfold netbootStage
  by_cases hg : guid = PartGuid.install
  · rw [if_pos hg]
    exact stepInv_of_minfs cfg st d _
  · rw [if_neg hg]
    exact stepInv_noMounts st d _ rfl rfl

/-- The blobfs arm satisfies the step invariant. -/
theorem blobfsStage_inv (cfg : Config) (st : FsState) (d : Device)
    (guid : PartGuid) : StepInv st d (blobfsStage cfg st d guid) := by
  unfold blobfsStage
  by_cases hg : guid ≠ PartGuid.blob
  · rw [if_pos hg]
    exact stepInv_noMounts st d _ rfl rfl
  · rw [if_neg hg]
    by_cases hfs : fshost_fsck cfg.checkEnabled d.fsck ≠ ZxStatus.ok
    · rw [if_pos hfs]
      exact stepInv_noMounts st d _ rfl rfl
    · rw [if_neg hfs]
      by_cases hsb : ¬st.blobMounted
      · rw [if_pos hsb]
        have hsb' : st.blobMounted = false := by simpa using hsb
        by_cases hms : d.mountStatus = ZxStatus.ok
        · rw [if_pos hms]
          simp [StepInv, stepMountsAt, stepOkMountsAt, fatMountPaths,
            mountCallsAll, mountCallsOf, potBool, hsb', hms, pathFsBlob,
            pathFsData, pathFsInstall, pathFsSystem]
        · rw [if_neg hms]
          simp [StepInv, stepMountsAt, stepOkMountsAt, fatMountPaths,
            mountCallsAll, mountCallsOf, potBool, hsb', hms, pathFsBlob,
            pathFsData, pathFsInstall, pathFsSystem]
      · rw [if_neg hsb]
        have hsb' : st.blobMounted = true := by simpa using hsb
        simp [StepInv, stepMountsAt, stepOkMountsAt, fatMountPaths,
          mountCallsAll, mountCallsOf, potBool, hsb']

/-- The minfs arm satisfies the step invariant. -/
theorem minfsStage_inv (cfg : Config) (st : FsState) (d : Device) :
    StepInv st d (minfsStage cfg st d) := by
  unfold minfsStage
  by_cases hfs : fshost_fsck cfg.checkEnabled d.fsck ≠ ZxStatus.ok
  · rw [if_pos hfs]
    exact stepInv_noMounts st d _ rfl rfl
  · rw [if_neg hfs]
    exact stepInv_of_minfs cfg st d _

/-- The FAT arm satisfies the step invariant. -/
theorem fatStage_inv (st : FsState) (d : Device) :
    StepInv st d (fatStage st d) := by
  unfold fatStage
  by_cases hefi : d.typeGuid = some PartGuid.efi
  · rw [if_pos hefi]
    exact stepInv_noMounts st d _ rfl rfl
  · rw [if_neg hefi]
    simp [StepInv, stepMountsAt, stepOkMountsAt, fatMountPaths,
      mountCallsAll, mountCallsOf, potBool, fatPath_ne_sys st.fatCounter,
      fatPath_ne_data st.fatCounter, fatPath_ne_install st.fatCounter,
      fatPath_ne_blob st.fatCounter]
    exact fun hb => Or.inl hb

/-- Every watcher step satisfies the step invariant. -/
theorem block_step_inv (cfg : Config) (nb : Bool) (st : FsState)
    (d : Device) : StepInv st d (block_device_added cfg nb st d) := by
  unfold block_device_added
  by_cases hea : ¬d.eventAdd
  · rw [if_pos hea]
    exact stepInv_noMounts st d _ rfl rfl
  · rw [if_neg hea]
    by_cases hoo : ¬d.openOK
    · rw [if_pos hoo]
      exact stepInv_noMounts st d _ rfl rfl
    · rw [if_neg hoo]
      by_cases hbp : d.infoOK ∧ d.bootpart
      · rw [if_pos hbp]
        exact stepInv_noMounts st d _ (by simp [mountCallsOf]) rfl
      · rw [if_neg hbp]
        cases hf : d.format
        · exact stepInv_noMounts st d _ (by simp [mountCallsOf]) rfl
        · exact stepInv_noMounts st d _ (by simp [mountCallsOf]) rfl
        · exact stepInv_noMounts st d _ (by simp [mountCallsOf]) rfl
        · exact stepInv_noMounts st d _ (by simp [mountCallsOf]) rfl
        · unfold fsStage
          cases nb
          · rw [hf]
            exact blobfsStage_inv cfg st d _
          · exact netbootStage_inv cfg st d _
        · unfold fsStage
          cases nb
          · rw [hf]
            exact minfsStage_inv cfg st d
          · exact netbootStage_inv cfg st d _
        · unfold fsStage
          cases nb
          · rw [hf]
            exact fatStage_inv st d
          · exact netbootStage_inv cfg st d _
        · unfold fsStage
          cases nb
          · rw [hf]
            exact stepInv_noMounts st d _ rfl rfl
          · exact netbootStage_inv cfg st d _

end Devmgr
namespace Devmgr

/-- Mount calls of a run split step by step. -/
theorem mountCallsAll_cons (r : StepResult) (rs : List StepResult) :
    mountCallsAll (r :: rs) = mountCallsOf r ++ mountCallsAll rs := by
  simp [mountCallsAll]

/-- Path-directed mount counts split step by step. -/
theorem countMountsAt_cons (p : String) (r : StepResult)
    (rs : List StepResult) :
    countMountsAt p (r :: rs) = stepMountsAt p r + countMountsAt p rs := by
  simp [countMountsAt, stepMountsAt, mountCallsAll_cons, List.countP_append]

/-- Successful path-directed mount counts split step by step. -/
theorem countOkMountsAt_cons (p : String) (r : StepResult)
    (rs : List StepResult) :
    countOkMountsAt p (r :: rs) =
      stepOkMountsAt p r + countOkMountsAt p rs := by
  simp [countOkMountsAt, stepOkMountsAt, mountCallsAll_cons,
    List.countP_append]

/-- FAT mount paths of a run split step by step. -/
theorem fatMountPaths_cons (r : StepResult) (rs : List StepResult) :
    fatMountPaths (r :: rs) = fatMountPaths [r] ++ fatMountPaths rs := by
  simp [fatMountPaths, mountCallsAll_cons, List.filter_append, mountCallsAll]

/-- A step measure bounded by a state potential bounds the whole run. -/
theorem run_pot_bound (cfg : Config) (nb : Bool) (f : StepResult → Nat)
    (pot : FsState → Nat)
    (hstep : ∀ st d, f (block_device_added cfg nb st d) +
      pot (block_device_added cfg nb st d).st ≤ pot st) :
    ∀ (ds : List Device) (st : FsState),
      ((runDevices cfg nb st ds).2.map f).sum ≤ pot st := by
  intro ds
  induction ds with
  | nil =>
    intro st
    simp [runDevices]
  | cons d ds ih =>
    intro st
    simp only [runDevices, List.map_cons, List.sum_cons]
    have h1 := hstep st d
    have h2 := ih (block_device_added cfg nb st d).st
    omega

/-- The run-wide count at a path is the sum of the per-step counts. -/
theorem countMountsAt_eq_sum (p : String) (rs : List StepResult) :
    countMountsAt p rs = (rs.map (stepMountsAt p)).sum := by
  induction rs with
  | nil => simp [countMountsAt, mountCallsAll]
  | cons r rs ih => simp [countMountsAt_cons, ih]

/-- The run-wide success count at a path is the sum of the per-step
counts. -/
theorem countOkMountsAt_eq_sum (p : String) (rs : List StepResult) :
    countOkMountsAt p rs = (rs.map (stepOkMountsAt p)).sum := by
  induction rs with
  | nil => simp [countOkMountsAt, mountCallsAll]
  | cons r rs ih => simp [countOkMountsAt_cons, ih]

/-- Along any run the FAT mount paths are pairwise distinct, and each is
the rendering of a counter value at least the starting one. -/
theorem run_fat_nodup (cfg : Config) (nb : Bool) : ∀ (ds : List Device)
    (st : FsState),
    (fatMountPaths (runDevices cfg nb st ds).2).Nodup ∧
    (∀ q ∈ fatMountPaths (runDevices cfg nb st ds).2,
      ∃ i, st.fatCounter ≤ i ∧ q = fatPath i) := by
  intro ds
  induction ds with
  | nil =>
    intro st
    simp [runDevices, fatMountPaths, mountCallsAll]
  | cons d ds ih =>
    intro st
    have hstep := (block_step_inv cfg nb st d).2.2.2.2.2.2
    obtain ⟨hnodup, hmem⟩ := ih (block_device_added cfg nb st d).st
    rw [show (runDevices cfg nb st (d :: ds)).2 =
      block_device_added cfg nb st d ::
        (runDevices cfg nb (block_device_added cfg nb st d).st ds).2 from
      rfl]
    rw [fatMountPaths_cons]
    rcases hstep with ⟨hnil, hcnt⟩ | ⟨hone, hcnt⟩
    · rw [hnil]
      refine ⟨by simpa using hnodup, ?_⟩
      intro q hq
      simp only [List.nil_append] at hq
      obtain ⟨i, hi, hq⟩ := hmem q hq
      exact ⟨i, by omega, hq⟩
    · rw [hone]
      constructor
      · rw [List.cons_append, List.nil_append, List.nodup_cons]
        refine ⟨?_, hnodup⟩
        intro hin
        obtain ⟨i, hi, hq⟩ := hmem _ hin
        have : st.fatCounter = i := fatPath_injective hq
        omega
      · intro q hq
        rw [List.cons_append, List.nil_append, List.mem_cons] at hq
        rcases hq with hq | hq
        · exact ⟨st.fatCounter, Nat.le_refl _, hq⟩
        · obtain ⟨i, hi, hq⟩ := hmem q hq
          exact ⟨i, by omega, hq⟩

end Devmgr
namespace Devmgr

/-- C1 counterexample: with the system-volume policy `any`, two system-GUID
minfs devices whose mounts both fail each reach the `mount()` call — two
mount attempts for the System role in one process lifetime, refuting "once a
mount of that role has been attempted, every later device arriving with the
same role GUID is skipped ... even if the first attempt failed" (no latch is
set on a failed system mount; only a served system root blocks retries). -/
theorem c1_counterexample :
    countMountsAt pathFsSystem
      (runDevices ⟨none, none, none, some volAny, false, false⟩ false
        initState
        [⟨true, true, true, false, false, .minfs, some .sys, .errIo,
          ⟨.ok, .ok, .ok, 0⟩⟩,
         ⟨true, true, true, false, false, .minfs, some .sys, .errIo,
          ⟨.ok, .ok, .ok, 0⟩⟩]).2 = 2 := by
  decide

/-- C1 (amended): across any device sequence from process start, at most
one Data mount attempt and at most one Install mount attempt occur (these
latches are set before the attempt, so even a failed attempt is never
retried), and at most one System mount attempt succeeds (a successful mount
serves the system root and blocks all later attempts, but a failed System
attempt does not latch and may be retried). -/
theorem c1_singleton_latches (cfg : Config) (nb : Bool) (ds : List Device) :
    countMountsAt pathFsData (runDevices cfg nb initState ds).2 ≤ 1 ∧
    countMountsAt pathFsInstall (runDevices cfg nb initState ds).2 ≤ 1 ∧
    countOkMountsAt pathFsSystem (runDevices cfg nb initState ds).2 ≤ 1 := by
  refine ⟨?_, ?_, ?_⟩
  · rw [countMountsAt_eq_sum]
    have h := run_pot_bound cfg nb (stepMountsAt pathFsData)
      (fun st => potBool st.dataMounted)
      (fun st d => (block_step_inv cfg nb st d).1) ds initState
    simpa [initState, potBool] using h
  · rw [countMountsAt_eq_sum]
    have h := run_pot_bound cfg nb (stepMountsAt pathFsInstall)
      (fun st => potBool st.installMounted)
      (fun st d => (block_step_inv cfg nb st d).2.1) ds initState
    simpa [initState, potBool] using h
  · rw [countOkMountsAt_eq_sum]
    have h := run_pot_bound cfg nb (stepOkMountsAt pathFsSystem)
      (fun st => potBool st.systemServed)
      (fun st d => (block_step_inv cfg nb st d).2.2.1) ds initState
    simpa [initState, potBool] using h

/-- C4 (code bug): the failing input.  A second data-GUID minfs device
arriving after the data slot is latched makes `mount_minfs` return
`ZX_ERR_ALREADY_BOUND` without reaching `mount()`; the handler opened the
device fd but neither closes it nor hands it off — the handle is leaked,
contradicting the claim that every early-exit branch still releases it. -/
theorem c4_handle_leak :
    (block_device_added ⟨none, none, none, some volAny, false, false⟩ false
      ⟨true, false, false, 0, false⟩
      ⟨true, true, true, false, false, .minfs, some .data, .ok,
        ⟨.ok, .ok, .ok, 0⟩⟩).fdOpened = true ∧
    (block_device_added ⟨none, none, none, some volAny, false, false⟩ false
      ⟨true, false, false, 0, false⟩
      ⟨true, true, true, false, false, .minfs, some .data, .ok,
        ⟨.ok, .ok, .ok, 0⟩⟩).fdClosed = false ∧
    (block_device_added ⟨none, none, none, some volAny, false, false⟩ false
      ⟨true, false, false, 0, false⟩
      ⟨true, true, true, false, false, .minfs, some .data, .ok,
        ⟨.ok, .ok, .ok, 0⟩⟩).fdTransferred = false ∧
    (mount_minfs ⟨none, none, none, some volAny, false, false⟩
      ⟨true, false, false, 0, false⟩
      ⟨true, true, true, false, false, .minfs, some .data, .ok,
        ⟨.ok, .ok, .ok, 0⟩⟩
      { default_mount_options with waitUntilReady := false }).status =
      .errAlreadyBound := by
  decide

/-- C3 counterexample: in netboot mode a GPT-formatted device whose type
GUID is not the install GUID is still bound to the GPT driver — refuting
"no driver bind ... for every device whose type GUID is not the install
GUID" (the container dispatch runs before the netboot restriction, as the
source comment says: "only bind drivers for partition containers and the
install partition"). -/
theorem c3_counterexample :
    ((PartGuid.other 0) ≠ PartGuid.install) ∧
    (block_device_added ⟨none, none, none, none, false, false⟩ true initState
      ⟨true, true, true, false, false, .gpt, some (.other 0), .ok,
        ⟨.ok, .ok, .ok, 0⟩⟩).actions = [Action.bindDriver gptDriverLib] := by
  decide

/-- C3 (amended): in netboot mode, an arriving device that is not flagged
boot-partition and whose format is none of the partition-container formats
(GPT/FVM/MBR/zxcrypt), with a type GUID other than the install GUID, is
left completely untouched: no bind, no mount, no state change, the handle
closed (not transferred) before returning `ZX_OK`. -/
theorem c3_netboot (cfg : Config) (st : FsState) (d : Device)
    (hadd : d.eventAdd = true) (hopen : d.openOK = true)
    (hbp : ¬(d.infoOK ∧ d.bootpart))
    (hfmt : d.format = .blobfs ∨ d.format = .minfs ∨ d.format = .fat ∨
      d.format = .unknown)
    (hg : d.typeGuid.getD .empty ≠ PartGuid.install) :
    (block_device_added cfg true st d).actions = [] ∧
    (block_device_added cfg true st d).fdClosed = true ∧
    (block_device_added cfg true st d).fdTransferred = false ∧
    (block_device_added cfg true st d).ret = .ok ∧
    (block_device_added cfg true st d).st = st := by
  rcases hfmt with hf | hf | hf | hf <;>
    · unfold block_device_added fsStage netbootStage
      simp [hadd, hopen, hbp, hf, hg]

/-- Witness for C3 at a concrete netboot data-partition device. -/
theorem c3_netboot_witness :
    (block_device_added ⟨none, none, none, none, false, false⟩ true initState
      ⟨true, true, true, false, false, .minfs, some .data, .ok,
        ⟨.ok, .ok, .ok, 0⟩⟩).actions = [] ∧
    (block_device_added ⟨none, none, none, none, false, false⟩ true initState
      ⟨true, true, true, false, false, .minfs, some .data, .ok,
        ⟨.ok, .ok, .ok, 0⟩⟩).fdClosed = true :=
  ⟨(c3_netboot ⟨none, none, none, none, false, false⟩ initState
      ⟨true, true, true, false, false, .minfs, some .data, .ok,
        ⟨.ok, .ok, .ok, 0⟩⟩ rfl rfl (by decide) (Or.inr (Or.inl rfl))
      (by decide)).1,
   (c3_netboot ⟨none, none, none, none, false, false⟩ initState
      ⟨true, true, true, false, false, .minfs, some .data, .ok,
        ⟨.ok, .ok, .ok, 0⟩⟩ rfl rfl (by decide) (Or.inr (Or.inl rfl))
      (by decide)).2.1⟩

end Devmgr
namespace Devmgr

/-- C2: the Blob latch is set only after the blob `mount()` call succeeds:
a failed mount leaves the latch clear; a valid blob device arriving with the
latch clear is mounted (exactly one blob mount call, with the default
blocking options), and on success the latch is set and `launch_blob_init`
(the package-filesystem bootstrap) is triggered; once the latch is set no
further blob mount call is ever issued and at most one successful blob mount
occurs per process lifetime. -/
theorem c2_blob_latch (cfg : Config) (nb : Bool) (st : FsState) (d : Device)
    (ds : List Device) :
    (st.blobMounted = false → d.mountStatus ≠ .ok →
      (block_device_added cfg nb st d).st.blobMounted = false) ∧
    (st.blobMounted = false → nb = false → d.eventAdd = true →
      d.openOK = true → ¬(d.infoOK ∧ d.bootpart) → d.format = .blobfs →
      d.typeGuid = some PartGuid.blob →
      fshost_fsck cfg.checkEnabled d.fsck = .ok →
      mountCallsOf (block_device_added cfg nb st d) =
        [⟨pathFsBlob, .blobfs, false, true, false, d.mountStatus⟩] ∧
      (d.mountStatus = .ok →
        (block_device_added cfg nb st d).st.blobMounted = true ∧
        Action.launchBlobInitCall ∈ (block_device_added cfg nb st d).actions)) ∧
    (st.blobMounted = true →
      stepMountsAt pathFsBlob (block_device_added cfg nb st d) = 0 ∧
      (block_device_added cfg nb st d).st.blobMounted = true) ∧
    countOkMountsAt pathFsBlob (runDevices cfg nb initState ds).2 ≤ 1 := by
  refine ⟨?_, ?_, ?_, ?_⟩
  · intro h1 h2
    cases hb : (block_device_added cfg nb st d).st.blobMounted
    · rfl
    · rcases (block_step_inv cfg nb st d).2.2.2.2.2.1 hb with h | h
      · rw [h1] at h; exact absurd h (by decide)
      · exact absurd h h2
  · intro h1 h2 h3 h4 h5 h6 h7 h8
    subst h2
    have hred : block_device_added cfg false st d =
        blobfsStage cfg st d PartGuid.blob := by
      unfold block_device_added fsStage
      simp [h3, h4, h5, h6, h7]
    rw [hred]
    unfold blobfsStage
    by_cases hms : d.mountStatus = ZxStatus.ok <;>
      simp [h1, h8, hms, mountCallsOf, default_mount_options]
  · intro h1
    exact (block_step_inv cfg nb st d).2.2.2.2.1 h1
  · rw [countOkMountsAt_eq_sum]
    have h := run_pot_bound cfg nb (stepOkMountsAt pathFsBlob)
      (fun st => potBool st.blobMounted)
      (fun st d => (block_step_inv cfg nb st d).2.2.2.1) ds initState
    simpa [initState, potBool] using h

/-- Witness for C2: a valid blob device whose mount fails is mounted once
and leaves the latch clear. -/
theorem c2_blob_latch_witness :
    mountCallsOf (block_device_added ⟨none, none, none, none, false, false⟩
      false initState
      ⟨true, true, true, false, false, .blobfs, some .blob, .errIo,
        ⟨.ok, .ok, .ok, 0⟩⟩) =
      [⟨pathFsBlob, .blobfs, false, true, false, .errIo⟩] ∧
    (block_device_added ⟨none, none, none, none, false, false⟩ false
      initState
      ⟨true, true, true, false, false, .blobfs, some .blob, .errIo,
        ⟨.ok, .ok, .ok, 0⟩⟩).st.blobMounted = false :=
  ⟨((c2_blob_latch ⟨none, none, none, none, false, false⟩ false initState
      ⟨true, true, true, false, false, .blobfs, some .blob, .errIo,
        ⟨.ok, .ok, .ok, 0⟩⟩ []).2.1 rfl rfl rfl rfl (by decide) rfl rfl
      (by decide)).1,
   (c2_blob_latch ⟨none, none, none, none, false, false⟩ false initState
      ⟨true, true, true, false, false, .blobfs, some .blob, .errIo,
        ⟨.ok, .ok, .ok, 0⟩⟩ []).1 rfl (by decide)⟩

/-- C8 counterexample: in netboot mode a FAT-formatted device with a
non-EFI GUID is closed without any mount call — refuting "every
FAT-formatted device with any other or no GUID is mounted at a freshly
derived mount point". -/
theorem c8_counterexample :
    ((PartGuid.other 5) ≠ PartGuid.efi) ∧
    mountCallsOf (block_device_added ⟨none, none, none, none, false, false⟩
      true initState
      ⟨true, true, true, false, false, .fat, some (.other 5), .ok,
        ⟨.ok, .ok, .ok, 0⟩⟩) = [] ∧
    (block_device_added ⟨none, none, none, none, false, false⟩ true initState
      ⟨true, true, true, false, false, .fat, some (.other 5), .ok,
        ⟨.ok, .ok, .ok, 0⟩⟩).fdClosed = true := by
  decide

/-- C8 (amended): a FAT-formatted device with the EFI type GUID is never
mounted, and its handle is closed whenever it was opened; outside netboot
mode (and for devices not flagged boot-partition) every other FAT device
is mounted exactly once at the fresh path `fat-<counter>` without blocking
on readiness and with mountpoint creation, incrementing the counter; and
the FAT mount paths of any run are pairwise distinct. -/
theorem c8_fat_mounts (cfg : Config) (nb : Bool) (st : FsState) (d : Device)
    (ds : List Device) :
    (d.format = .fat → d.typeGuid = some PartGuid.efi →
      mountCallsOf (block_device_added cfg nb st d) = [] ∧
      ((block_device_added cfg nb st d).fdOpened = true →
        (block_device_added cfg nb st d).fdClosed = true)) ∧
    (d.eventAdd = true → d.openOK = true → ¬(d.infoOK ∧ d.bootpart) →
      d.format = .fat → nb = false → d.typeGuid ≠ some PartGuid.efi →
      mountCallsOf (block_device_added cfg nb st d) =
        [⟨fatPath st.fatCounter, .fat, false, false, true, d.mountStatus⟩] ∧
      (block_device_added cfg nb st d).st.fatCounter = st.fatCounter + 1) ∧
    (fatMountPaths (runDevices cfg nb st ds).2).Nodup := by
  refine ⟨?_, ?_, (run_fat_nodup cfg nb ds st).1⟩
  · intro hf hefi
    have hg : d.typeGuid.getD .empty ≠ PartGuid.install := by
      rw [hefi]
      decide
    unfold block_device_added fsStage netbootStage fatStage
    by_cases hea : ¬d.eventAdd
    · simp [hea, mountCallsOf]
    · by_cases hoo : ¬d.openOK
      · simp [hea, hoo, mountCallsOf]
      · by_cases hbp : d.infoOK ∧ d.bootpart
        · simp [hea, hoo, hbp, mountCallsOf]
        · cases nb <;> simp [hea, hoo, hbp, hf, hefi, hg, mountCallsOf]
  · intro h1 h2 h3 h4 h5 h6
    subst h5
    unfold block_device_added fsStage fatStage
    simp [h1, h2, h3, h4, h6, mountCallsOf, default_mount_options]

/-- Witness for C8: the first FAT device mounts at `fat-0`; an EFI-GUID
FAT device is not mounted. -/
theorem c8_fat_mounts_witness :
    mountCallsOf (block_device_added ⟨none, none, none, none, false, false⟩
      false initState
      ⟨true, true, true, false, false, .fat, some (.other 3), .ok,
        ⟨.ok, .ok, .ok, 0⟩⟩) =
      [⟨fatPath 0, .fat, false, false, true, .ok⟩] ∧
    mountCallsOf (block_device_added ⟨none, none, none, none, false, false⟩
      false initState
      ⟨true, true, true, false, false, .fat, some .efi, .ok,
        ⟨.ok, .ok, .ok, 0⟩⟩) = [] :=
  ⟨((c8_fat_mounts ⟨none, none, none, none, false, false⟩ false initState
      ⟨true, true, true, false, false, .fat, some (.other 3), .ok,
        ⟨.ok, .ok, .ok, 0⟩⟩ []).2.1 rfl rfl (by decide) rfl rfl
      (by decide)).1,
   ((c8_fat_mounts ⟨none, none, none, none, false, false⟩ false initState
      ⟨true, true, true, false, false, .fat, some .efi, .ok,
        ⟨.ok, .ok, .ok, 0⟩⟩ []).1 rfl rfl).1⟩

end Devmgr
